import Mathlib

/-!
# Verification of the screenshader compositor core

A shallow embedding of the compositor core of `src/screenshader.c` (an X11
compositor with GLSL post-processing), together with proofs of the testable
properties stated in its specification.

Modelling conventions, used throughout:

* Machine integers (`int` geometry fields) are `Int`; X identifiers and
  GPU/X resource handles (`Window`, `Pixmap`, `GLXPixmap`, `GLuint`,
  `Damage`) are `Nat`, with `0` meaning "no resource" (X `None` and the GL
  null object are both 0).
* The doubly-linked stacking list (`win_head`/`win_tail` with per-entry
  `prev`/`next` pointers) is represented by the bottom-to-top list it
  encodes: the head of the `List WinEntry` is `win_head` (bottom of the
  stack, `next` moves toward the tail/top).  Link-consistency and totality
  of the order are intrinsic to that representation; the remaining content
  of the pointer surgery (which entry ends up where, and uniqueness of
  identities) is proved below.
* Calls into the X server and the GL driver are modelled in the nominal,
  single-threaded environment: round-trip queries succeed and agree with
  the tracked state (`XGetWindowAttributes` reports the window's immutable
  color depth and a viewability equal to the tracked `mapped` flag), and
  resource creation (`XCompositeNameWindowPixmap`, `glXCreatePixmap`,
  `glGenTextures`) yields fresh non-zero handles.  Asynchronous X protocol
  errors are outside the embedding.
* C library facilities that are external to the repository (the `%f`
  conversion of `sscanf`, `glGetUniformLocation`) enter as parameters of
  the corresponding definitions.
-/

namespace Screenshader

/-- One tracked window: `struct WinEntry` of `screenshader.c`.  The
`prev`/`next` stacking pointers are represented by the entry's position in a
bottom-to-top `List WinEntry` (see the module docstring); all other fields
are carried verbatim. -/
structure WinEntry where
  xid : Nat
  pixmap : Nat
  glx_pixmap : Nat
  texture : Nat
  damage : Nat
  x : Int
  y : Int
  width : Int
  height : Int
  border_width : Int
  mapped : Bool
  override_redirect : Bool
  damaged : Bool
  pixmap_valid : Bool
deriving Repr, DecidableEq

/-- `unbind_window_pixmap` (screenshader.c:239-255): a no-op when
`pixmap_valid` is already false; otherwise releases the texture/pixmap
association and zeroes the `texture`, `glx_pixmap` and `pixmap` handles and
the `pixmap_valid` flag. -/
def unbind_window_pixmap (w : WinEntry) : WinEntry :=
  if w.pixmap_valid = false then w
  else { w with texture := 0, glx_pixmap := 0, pixmap := 0, pixmap_valid := false }

/-- The check-and-acquire tail of `bind_window_pixmap`
(screenshader.c:259-305), after the initial release of a still-valid
binding: the `mapped`/size precondition, then the live viewability check
(`attr.map_state != IsViewable`, nominally equal to the tracked `mapped`
flag), then the depth table lookup
(`depth <= 0 || depth >= MAX_DEPTH || !tfp_available[depth]`); only if all
pass are fresh non-zero handles installed and `pixmap_valid`/`damaged`
set. -/
def bind_window_pixmap_checks (tfp_available : Nat → Bool) (depth : Nat)
    (w : WinEntry) : WinEntry :=
  if w.mapped = false ∨ w.width ≤ 0 ∨ w.height ≤ 0 then w
  else if w.mapped = false then w
  else if depth = 0 ∨ 33 ≤ depth ∨ tfp_available depth = false then w
  else { w with pixmap := w.xid + 1, glx_pixmap := w.xid + 2,
                texture := w.xid + 3, pixmap_valid := true, damaged := true }

/-- `bind_window_pixmap` (screenshader.c:257-306), in the nominal
environment.  `tfp_available` is the `comp->tfp_available` table built at
startup, `depth` is the window's (immutable) color depth as reported by the
live `XGetWindowAttributes` query.  Order of operations follows the C: a
still-valid binding is released first (line 258), then the precondition
checks and the acquisition run (`bind_window_pixmap_checks`). -/
def bind_window_pixmap (tfp_available : Nat → Bool) (depth : Nat)
    (w0 : WinEntry) : WinEntry :=
  bind_window_pixmap_checks tfp_available depth
    (if w0.pixmap_valid then unbind_window_pixmap w0 else w0)

/-- The depth precondition of `bind_window_pixmap` as a predicate: the
window's color depth has a usable entry in the depth/format table. -/
def depthUsable (tfp_available : Nat → Bool) (depth : Nat) : Bool :=
  decide (0 < depth) && decide (depth < 33) && tfp_available depth

/-- The per-window effect of the reactor transitions that touch the
binding, from the event handlers of screenshader.c:

* `map`: `handle_map` (397-431) — refresh geometry from the (nominally
  successful) attribute query, set `mapped`, create damage tracking if
  absent, then `bind_window_pixmap`;
* `unmap`: `handle_unmap` (433-443) — clear `mapped`, `unbind_window_pixmap`,
  destroy the damage handle;
* `configure`: the per-window part of `handle_configure` (471-489) —
  update geometry, and rebind exactly when the size changed and the window
  is mapped (restacking is a registry concern, not a binding one);
* `rebind`: a bare `bind_window_pixmap` call. -/
inductive WinOp where
  | map (x y width height border_width : Int)
  | unmap
  | configure (x y width height border_width : Int)
  | rebind
deriving Repr, DecidableEq

/-- One reactor transition applied to a single tracked window (nominal
environment, window depth fixed at `depth`). -/
def stepWin (tfp_available : Nat → Bool) (depth : Nat) (w : WinEntry) :
    WinOp → WinEntry
  | .map px py pw ph pbw =>
      bind_window_pixmap tfp_available depth
        { w with x := px, y := py, width := pw, height := ph,
                 border_width := pbw, mapped := true,
                 damage := if w.damage = 0 then w.xid + 4 else w.damage }
  | .unmap =>
      { unbind_window_pixmap { w with mapped := false } with damage := 0 }
  | .configure px py pw ph pbw =>
      let resized : Bool := decide (w.width ≠ pw) || decide (w.height ≠ ph)
      let w1 : WinEntry :=
        { w with x := px, y := py, width := pw, height := ph,
                 border_width := pbw }
      if resized && w1.mapped then bind_window_pixmap tfp_available depth w1
      else w1
  | .rebind => bind_window_pixmap tfp_available depth w

/-- A sequence of reactor transitions on one window. -/
def runWin (tfp_available : Nat → Bool) (depth : Nat) (ops : List WinOp)
    (w : WinEntry) : WinEntry :=
  ops.foldl (stepWin tfp_available depth) w

/-- The binding invariant of the specification: a live GPU binding exists
iff the window is mapped, has positive width and height, and its depth has
a usable depth/format table entry; moreover an unbound window holds no
pixel-buffer, GLX-pixmap or texture handle. -/
def WinInv (tfp_available : Nat → Bool) (depth : Nat) (w : WinEntry) : Prop :=
  (w.pixmap_valid = true ↔
    (w.mapped = true ∧ 0 < w.width ∧ 0 < w.height ∧
      depthUsable tfp_available depth = true)) ∧
  (w.pixmap_valid = false → w.pixmap = 0 ∧ w.glx_pixmap = 0 ∧ w.texture = 0)

/-- The all-clear entry created by `add_win` via `calloc` (only `xid` set). -/
def initWinEntry (xid : Nat) : WinEntry :=
  { xid := xid, pixmap := 0, glx_pixmap := 0, texture := 0, damage := 0,
    x := 0, y := 0, width := 0, height := 0, border_width := 0,
    mapped := false, override_redirect := false, damaged := false,
    pixmap_valid := false }

/-- The drawn windows of pass 1 of `render_frame` (screenshader.c:580-604):
the loop walks `win_head → next` (bottom-to-top) and skips an entry iff
`!w->mapped || !w->pixmap_valid` or `w->width <= 0 || w->height <= 0`. -/
def pass1_windows (l : List WinEntry) : List WinEntry :=
  l.filter fun w =>
    w.mapped && w.pixmap_valid && !decide (w.width ≤ 0) && !decide (w.height ≤ 0)

/-- A window state occurring inside `handle_configure`: still bound
(`pixmap_valid` with live handles) just after its tracked width was
updated to `0`, and before the rebind call. -/
def c7win : WinEntry :=
  { xid := 7, pixmap := 8, glx_pixmap := 9, texture := 10, damage := 11,
    x := 0, y := 0, width := 0, height := 600, border_width := 0,
    mapped := true, override_redirect := false, damaged := false,
    pixmap_valid := true }

/-- `find_win` (screenshader.c:312-317): walk from `win_head` along `next`
(bottom-to-top) and return the first entry with the given identity. -/
def find_win (xid : Nat) : List WinEntry → Option WinEntry
  | [] => none
  | e :: rest => if e.xid = xid then some e else find_win xid rest

/-- `add_win` (319-336): refuse an already-tracked identity and the
overlay/root identities; otherwise link a `calloc`-cleared entry at the
tail, i.e. the top of the stacking order. -/
def add_win (overlay root : Nat) (l : List WinEntry) (xid : Nat) : List WinEntry :=
  if (find_win xid l).isSome then l
  else if xid = overlay ∨ xid = root then l
  else l ++ [initWinEntry xid]

/-- The unlink block shared by `remove_win` (348-351), `restack_win`
(359-364) and `handle_circulate` (515-520): detach the entry with the
given identity from the stacking list. -/
def unlink (xid : Nat) : List WinEntry → List WinEntry
  | [] => []
  | e :: rest => if e.xid = xid then rest else e :: unlink xid rest

/-- `remove_win` (338-354) as seen from the registry: the per-entry
cleanup (damage destruction, unbind) concerns only the entry being freed;
the list effect is the unlink. -/
def remove_win (xid : Nat) (l : List WinEntry) : List WinEntry :=
  unlink xid l

/-- The splice of `restack_win`'s found-sibling branch (374-381): insert
`w` immediately after (that is, above) the first entry with identity
`above`.  When no such entry exists the walk appends `w` at the tail,
which coincides with the not-found place-at-top branch (382-389). -/
def linkAbove (above : Nat) (w : WinEntry) : List WinEntry → List WinEntry
  | [] => [w]
  | e :: rest =>
      if e.xid = above then e :: w :: rest else e :: linkAbove above w rest

/-- `restack_win` (356-391): detach `w`; then place it at the bottom when
no sibling is named (`above_xid == None || above_xid == 0`), immediately
above the sibling when `find_win` locates it, and at the top otherwise. -/
def restack_win (l : List WinEntry) (w : WinEntry) (above : Nat) : List WinEntry :=
  let l2 := unlink w.xid l
  if above = 0 then w :: l2
  else if (find_win above l2).isSome then linkAbove above w l2
  else l2 ++ [w]

/-- The registry operations of the Window Registry interface, dispatched
the way the event handlers do: `remove` and `restack` first `find_win` the
identity and ignore untracked ones. -/
inductive RegOp where
  | insert (xid : Nat)
  | remove (xid : Nat)
  | restack (xid above : Nat)
deriving Repr, DecidableEq

/-- One registry operation. -/
def stepReg (overlay root : Nat) (l : List WinEntry) : RegOp → List WinEntry
  | .insert xid => add_win overlay root l xid
  | .remove xid =>
      match find_win xid l with
      | some _ => remove_win xid l
      | none => l
  | .restack xid above =>
      match find_win xid l with
      | some w => restack_win l w above
      | none => l

/-- A sequence of registry operations. -/
def runReg (overlay root : Nat) (ops : List RegOp) (l : List WinEntry) :
    List WinEntry :=
  ops.foldl (stepReg overlay root) l

/-- The identities of the stacking list, bottom-to-top. -/
def xids (l : List WinEntry) : List Nat :=
  l.map fun w => w.xid

/-- Mutate the first tracked entry with the given identity in place, as
the C handlers do with the entry returned by `find_win`. -/
def modifyWin (xid : Nat) (f : WinEntry → WinEntry) : List WinEntry → List WinEntry
  | [] => []
  | e :: rest => if e.xid = xid then f e :: rest else e :: modifyWin xid f rest

/-- `handle_unmap` (433-443): on a tracked identity, clear `mapped`,
unbind, destroy the damage handle; untracked identities are ignored. -/
def handle_unmap (l : List WinEntry) (xid : Nat) : List WinEntry :=
  modifyWin xid
    (fun w => { unbind_window_pixmap { w with mapped := false } with damage := 0 })
    l

/-- The result of the (nominally successful) `XGetWindowAttributes`
query. -/
structure XAttr where
  x : Int
  y : Int
  width : Int
  height : Int
  border_width : Int
  depth : Nat
  override_redirect : Bool
deriving Repr, DecidableEq

/-- The per-entry refresh of `handle_map` (404-430): copy the queried
geometry, set `mapped`, create damage tracking if absent (nominally
succeeding, fresh handle abstracted as non-zero), then bind. -/
def refresh_map (tfp_available : Nat → Bool) (attr : XAttr) (w : WinEntry) :
    WinEntry :=
  bind_window_pixmap tfp_available attr.depth
    { w with x := attr.x, y := attr.y, width := attr.width,
             height := attr.height, border_width := attr.border_width,
             override_redirect := attr.override_redirect, mapped := true,
             damage := if w.damage = 0 then w.xid + 4 else w.damage }

/-- `handle_map` (397-431): insert the identity if untracked (`add_win`
refuses the overlay/root identities, in which case the handler returns),
then refresh the entry and bind. -/
def handle_map (tfp_available : Nat → Bool) (overlay root : Nat) (attr : XAttr)
    (l : List WinEntry) (xid : Nat) : List WinEntry :=
  if (find_win xid l).isSome then
    modifyWin xid (refresh_map tfp_available attr) l
  else
    let l2 := add_win overlay root l xid
    if (find_win xid l2).isSome then
      modifyWin xid (refresh_map tfp_available attr) l2
    else l2

/-- A concrete mapped-and-bound entry for the scenario theorems. -/
def winA : WinEntry :=
  { xid := 1, pixmap := 2, glx_pixmap := 3, texture := 4, damage := 5,
    x := 0, y := 0, width := 100, height := 80, border_width := 0,
    mapped := true, override_redirect := false, damaged := false,
    pixmap_valid := true }

/-- A second concrete mapped-and-bound entry. -/
def winB : WinEntry :=
  { winA with xid := 2, x := 50 }

/-- A third concrete mapped-and-bound entry. -/
def winC : WinEntry :=
  { winA with xid := 3, x := 90 }

/-- One runtime shader parameter: an entry of `comp->params`
(screenshader.c:117-121) — `name` (char[64]), `value` (a C float; the
model carries the parsed decimal exactly, as a rational) and the resolved
uniform `location` (GLint, `-1` when the program has no such uniform). -/
structure Param where
  name : String
  value : Rat
  location : Int
deriving Repr, DecidableEq

/-- The post-process state touched by hot-reload: the program handle, its
three fixed uniform locations, the current parameter set, and a ghost
trace of the previously active program handles passed to
`glDeleteProgram` (screenshader.c:660). -/
structure PostprocState where
  postproc_prog : Nat
  u_screen_tex : Int
  u_resolution : Int
  u_time : Int
  params : List Param
  destroyed : List Nat
deriving Repr, DecidableEq

/-- The environment of one hot-reload attempt: the result of
`load_file(shader_path)` (`none` when unreadable), the compiler verdict on
the loaded source, the linker verdict, the handle of the freshly linked
program, and `glGetUniformLocation`. -/
structure ReloadEnv where
  load_file : Option String
  compile_ok : String → Bool
  link_ok : Bool
  new_prog : Nat
  uloc : Nat → String → Int

/-- `reload_postproc_shader` (screenshader.c:640-673): on a load, compile
or link failure return with the state untouched; on success destroy the
old program, install the new one, and re-resolve the screen-texture,
resolution, time and every current parameter uniform location against
it. -/
def reload_postproc_shader (env : ReloadEnv) (s : PostprocState) :
    PostprocState :=
  match env.load_file with
  | none => s
  | some frag_src =>
      if env.compile_ok frag_src = false then s
      else if env.link_ok = false then s
      else
        { postproc_prog := env.new_prog,
          u_screen_tex := env.uloc env.new_prog "u_screen",
          u_resolution := env.uloc env.new_prog "u_resolution",
          u_time := env.uloc env.new_prog "u_time",
          params := s.params.map fun p =>
            { p with location := env.uloc env.new_prog p.name },
          destroyed := s.destroyed ++ [s.postproc_prog] }

/-- The whitespace set of C `isspace`, as `sscanf`'s `%s` and `%f`
directives skip it. -/
def isWS (c : Char) : Bool :=
  c = ' ' || c = '\t' || c = '\n' || c = '\r' || c = '\x0b' || c = '\x0c'

/-- Character-level scan splitting a line into its maximal non-whitespace
runs (`cur` holds the reversed run being read). -/
def tokensAux (cur : List Char) : List Char → List String
  | [] => if cur.isEmpty then [] else [String.mk cur.reverse]
  | c :: cs =>
      if isWS c then
        if cur.isEmpty then tokensAux [] cs
        else String.mk cur.reverse :: tokensAux [] cs
      else tokensAux (c :: cur) cs

/-- The whitespace-separated tokens of a line. -/
def tokens (s : String) : List String := tokensAux [] s.data

/-- Split a character list at every occurrence of `sep` (empty pieces
kept). -/
def splitChar (sep : Char) (cur : List Char) : List Char → List (List Char)
  | [] => [cur.reverse]
  | c :: cs =>
      if c = sep then cur.reverse :: splitChar sep [] cs
      else splitChar sep (c :: cur) cs

/-- The lines of the parameter file text, as the `fgets` loop reads them
(nominally each line fits the 256-byte buffer). -/
def linesOf (s : String) : List String :=
  (splitChar '\n' [] s.data).map String.mk

/-- The value of a decimal digit character. -/
def digitVal (c : Char) : Option Nat :=
  if c = '0' then some 0 else if c = '1' then some 1
  else if c = '2' then some 2 else if c = '3' then some 3
  else if c = '4' then some 4 else if c = '5' then some 5
  else if c = '6' then some 6 else if c = '7' then some 7
  else if c = '8' then some 8 else if c = '9' then some 9 else none

/-- Accumulate a decimal digit run; any non-digit refuses the run. -/
def decDigits (acc : Nat) : List Char → Option Nat
  | [] => some acc
  | c :: cs =>
      match digitVal c with
      | some d => decDigits (acc * 10 + d) cs
      | none => none

/-- A non-empty all-digit run as a natural number. -/
def parseNat (cs : List Char) : Option Nat :=
  if cs.isEmpty then none else decDigits 0 cs

/-- Models the C library decimal conversion performed by `sscanf`'s `%f`
on the plain decimal forms the parameter files use: an optional sign, an
integer part, an optional fractional part (exponent, hexadecimal and
inf/nan forms are outside the model).  The value is kept exactly, as a
rational. -/
def parseDec (s : String) : Option Rat :=
  let cs := s.data
  let neg : Bool := cs.head? = some '-'
  let body := match cs with
              | c :: rest => if c = '-' || c = '+' then rest else cs
              | [] => []
  match splitChar '.' [] body with
  | [ipart] =>
      match parseNat ipart with
      | some n => some (mkRat (if neg then -(n : Int) else (n : Int)) 1)
      | none => none
  | [ipart, fpart] =>
      match parseNat ipart, parseNat fpart with
      | some n, some m =>
          let den : Nat := 10 ^ fpart.length
          let num : Int := (n : Int) * (den : Int) + (m : Int)
          some (mkRat (if neg then -num else num) den)
      | _, _ => none
  | _ => none

/-- One line of the parameter file through `sscanf(line, "%63s %f", ...)`
(screenshader.c:691-699): the first two whitespace-separated tokens give
the name (at most 63 characters; the model treats a longer first token as
malformed) and the value, converted by the C library float parser
`parseF`; text after the value is ignored, and every other line shape is
skipped.  An accepted entry's location is resolved against the current
post-process program. -/
def parse_line (parseF : String → Option Rat) (uloc : Nat → String → Int)
    (prog : Nat) (line : String) : Option Param :=
  match tokens line with
  | name :: vtok :: _ =>
      if name.length ≤ 63 then
        match parseF vtok with
        | some v => some { name := name, value := v, location := uloc prog name }
        | none => none
      else none
  | _ => none

/-- The `fgets` loop of `read_params` (690-700): store accepted lines
while fewer than `MAX_PARAMS` (16) entries are held. -/
def collect_params (parseF : String → Option Rat) (uloc : Nat → String → Int)
    (prog : Nat) : List String → List Param → List Param
  | [], acc => acc
  | line :: rest, acc =>
      if 16 ≤ acc.length then acc
      else
        match parse_line parseF uloc prog line with
        | some p => collect_params parseF uloc prog rest (acc ++ [p])
        | none => collect_params parseF uloc prog rest acc

/-- The parameter-subsystem fields of `Compositor` (122-124 with
`needs_redraw` and the current post-process program). -/
structure ParamState where
  params : List Param
  param_mtime : Int
  needs_redraw : Bool
  postproc_prog : Nat
deriving Repr, DecidableEq

/-- `read_params` (screenshader.c:679-705).  `file` is the observable
state of `/tmp/screenshader.params`: `none` when `stat` fails (file
absent), otherwise its modification time and text (nominally, a stat-able
file also opens, and its lines fit the 256-byte `fgets` buffer).  `stat`
failure or an unchanged timestamp returns with the state untouched;
otherwise the set is rebuilt wholesale from the file, the timestamp is
recorded and redraw is marked owed. -/
def read_params (parseF : String → Option Rat) (uloc : Nat → String → Int)
    (file : Option (Int × String)) (s : ParamState) : ParamState :=
  match file with
  | none => s
  | some (mtime, text) =>
      if mtime = s.param_mtime then s
      else
        { s with param_mtime := mtime,
                 params := collect_params parseF uloc s.postproc_prog
                   (linesOf text) [],
                 needs_redraw := true }

/-- An abstract uniform-location assignment for the concrete scenarios. -/
def uloc0 : Nat → String → Int := fun _ n => Int.ofNat n.length

/-- A concrete post-process state for the reload scenario. -/
def pp0 : PostprocState :=
  { postproc_prog := 7, u_screen_tex := 0, u_resolution := 1, u_time := 2,
    params := [{ name := "brightness", value := mkRat 1 2, location := 3 }],
    destroyed := [] }

/-- A concrete reload environment whose compile and link both succeed. -/
def renvOk : ReloadEnv :=
  { load_file := some "frag", compile_ok := fun _ => true, link_ok := true,
    new_prog := 9, uloc := uloc0 }

/-- The initial parameter state of the round-trip scenario. -/
def ps0 : ParamState :=
  { params := [], param_mtime := 0, needs_redraw := false, postproc_prog := 7 }

/-- A parameter state with one previously loaded entry. -/
def c9state : ParamState :=
  { params := [{ name := "brightness", value := mkRat 1 2, location := 10 }],
    param_mtime := 5, needs_redraw := false, postproc_prog := 7 }

theorem unbind_pixmap_valid (w : WinEntry) :
    (unbind_window_pixmap w).pixmap_valid = false := by
  unfold unbind_window_pixmap
  split <;> simp_all

theorem unbind_fields (w : WinEntry) :
    (unbind_window_pixmap w).mapped = w.mapped ∧
    (unbind_window_pixmap w).width = w.width ∧
    (unbind_window_pixmap w).height = w.height := by
  unfold unbind_window_pixmap
  split <;> simp_all

theorem unbind_handles (w : WinEntry)
    (h : w.pixmap_valid = false → w.pixmap = 0 ∧ w.glx_pixmap = 0 ∧ w.texture = 0) :
    (unbind_window_pixmap w).pixmap = 0 ∧
    (unbind_window_pixmap w).glx_pixmap = 0 ∧
    (unbind_window_pixmap w).texture = 0 := by
  unfold unbind_window_pixmap
  split <;> simp_all

/-- The check-and-acquire tail establishes the binding invariant on any
entry whose binding is currently invalid and whose handles are clear. -/
theorem winInv_checks (tfp_available : Nat → Bool) (depth : Nat) (w : WinEntry)
    (hv : w.pixmap_valid = false)
    (hh : w.pixmap = 0 ∧ w.glx_pixmap = 0 ∧ w.texture = 0) :
    WinInv tfp_available depth (bind_window_pixmap_checks tfp_available depth w) := by
  unfold bind_window_pixmap_checks WinInv depthUsable
  split_ifs with h1 h2 h3
  · refine ⟨?_, fun _ => hh⟩
    rw [hv]
    simp only [Bool.false_eq_true, false_iff]
    rintro ⟨hm, hw, hht, -⟩
    rcases h1 with h | h | h
    · rw [hm] at h; exact Bool.noConfusion h
    · omega
    · omega
  · exact absurd (Or.inl h2) h1
  · refine ⟨?_, fun _ => hh⟩
    rw [hv]
    simp only [Bool.false_eq_true, false_iff]
    rintro ⟨-, -, -, hd⟩
    simp only [Bool.and_eq_true, decide_eq_true_eq] at hd
    obtain ⟨⟨hd1, hd2⟩, hd3⟩ := hd
    rcases h3 with h | h | h
    · omega
    · omega
    · rw [h] at hd3; exact Bool.noConfusion hd3
  · push_neg at h1 h3
    obtain ⟨hm, hw, hht⟩ := h1
    obtain ⟨hd1, hd2, hd3⟩ := h3
    have hm2 : w.mapped = true := by
      rcases Bool.eq_false_or_eq_true w.mapped with h | h
      · exact h
      · exact absurd h hm
    have hd4 : tfp_available depth = true := by
      rcases Bool.eq_false_or_eq_true (tfp_available depth) with h | h
      · exact h
      · exact absurd h hd3
    refine ⟨⟨fun _ => ⟨hm2, (by omega : 0 < w.width), (by omega : 0 < w.height),
      (by simp [hd4]; omega :
        (decide (0 < depth) && decide (depth < 33) && tfp_available depth) = true)⟩,
      fun _ => rfl⟩, fun hfalse => by simp at hfalse⟩

/-- `bind_window_pixmap` establishes the binding invariant on any entry
whose handles are clear whenever its binding is invalid. -/
theorem winInv_bind (tfp_available : Nat → Bool) (depth : Nat) (w : WinEntry)
    (h : w.pixmap_valid = false → w.pixmap = 0 ∧ w.glx_pixmap = 0 ∧ w.texture = 0) :
    WinInv tfp_available depth (bind_window_pixmap tfp_available depth w) := by
  unfold bind_window_pixmap
  apply winInv_checks
  · split
    · exact unbind_pixmap_valid w
    · simp_all
  · split
    · exact unbind_handles w h
    · simp_all

/-- A geometry-only update of an entry whose `mapped` flag is off keeps the
binding invariant (the binding is already absent on both sides). -/
theorem winInv_unmapped_entry (tfp_available : Nat → Bool) (depth : Nat)
    (w : WinEntry) (h : WinInv tfp_available depth w)
    (px py pw ph pbw : Int) (hm : ¬w.mapped = true) :
    WinInv tfp_available depth
      { w with x := px, y := py, width := pw, height := ph,
               border_width := pbw } := by
  have hvf : w.pixmap_valid = false := by
    rcases Bool.eq_false_or_eq_true w.pixmap_valid with hv | hv
    · exact absurd (h.1.mp hv).1 hm
    · exact hv
  refine ⟨⟨fun hv => ?_, fun hrhs => ?_⟩, fun _ => h.2 hvf⟩
  · have hv2 : w.pixmap_valid = true := hv
    rw [hvf] at hv2
    exact Bool.noConfusion hv2
  · exact absurd hrhs.1 hm

/-- Every reactor transition preserves the binding invariant. -/
theorem winInv_step (tfp_available : Nat → Bool) (depth : Nat) (w : WinEntry)
    (op : WinOp) (h : WinInv tfp_available depth w) :
    WinInv tfp_available depth (stepWin tfp_available depth w op) := by
  cases op with
  | map px py pw ph pbw =>
      simp only [stepWin]
      exact winInv_bind _ _ _ h.2
  | unmap =>
      simp only [stepWin]
      have hval : (unbind_window_pixmap { w with mapped := false }).pixmap_valid = false :=
        unbind_pixmap_valid _
      have hmap : (unbind_window_pixmap { w with mapped := false }).mapped = false := by
        rw [(unbind_fields _).1]
      have hhandles := unbind_handles { w with mapped := false } h.2
      refine ⟨⟨fun hv => ?_, fun hrhs => ?_⟩, fun _ => hhandles⟩
      · have hv2 : (unbind_window_pixmap { w with mapped := false }).pixmap_valid = true := hv
        rw [hval] at hv2
        exact Bool.noConfusion hv2
      · have hm2 : (unbind_window_pixmap { w with mapped := false }).mapped = true := hrhs.1
        rw [hmap] at hm2
        exact Bool.noConfusion hm2
  | configure px py pw ph pbw =>
      simp only [stepWin]
      split
      · exact winInv_bind _ _ _ h.2
      · rename_i hcond
        simp only [Bool.and_eq_true, Bool.or_eq_true, decide_eq_true_eq] at hcond
        push_neg at hcond
        by_cases hwi : w.width = pw
        · by_cases hhi : w.height = ph
          · subst hwi
            subst hhi
            exact h
          · exact winInv_unmapped_entry _ _ _ h _ _ _ _ _ (hcond (Or.inr hhi))
        · exact winInv_unmapped_entry _ _ _ h _ _ _ _ _ (hcond (Or.inl hwi))
  | rebind =>
      simp only [stepWin]
      exact winInv_bind _ _ _ h.2

/-- **C1.** After any sequence of reactor bind (map), unbind (unmap) and
resize (configure) transitions starting from a state satisfying the
binding invariant, the window holds a live GPU binding (`pixmap_valid`)
iff it is mapped, has positive width and height, and its color depth has a
usable depth/format table entry; in particular an unmapped window holds no
live GPU binding, pixel-buffer, GLX-pixmap or texture handle. -/
theorem c1_binding_invariant (tfp_available : Nat → Bool) (depth : Nat)
    (ops : List WinOp) (w : WinEntry) (h : WinInv tfp_available depth w) :
    WinInv tfp_available depth (runWin tfp_available depth ops w) ∧
    ((runWin tfp_available depth ops w).mapped = false →
      (runWin tfp_available depth ops w).pixmap_valid = false ∧
      (runWin tfp_available depth ops w).pixmap = 0 ∧
      (runWin tfp_available depth ops w).glx_pixmap = 0 ∧
      (runWin tfp_available depth ops w).texture = 0) := by
  have hinv : WinInv tfp_available depth (runWin tfp_available depth ops w) := by
    unfold runWin
    induction ops generalizing w with
    | nil => exact h
    | cons op rest ih => exact ih _ (winInv_step _ _ _ _ h)
  refine ⟨hinv, fun hm => ?_⟩
  have hvf : (runWin tfp_available depth ops w).pixmap_valid = false := by
    rcases Bool.eq_false_or_eq_true
        (runWin tfp_available depth ops w).pixmap_valid with hv | hv
    · have hmt := (hinv.1.mp hv).1
      rw [hm] at hmt
      exact Bool.noConfusion hmt
    · exact hv
  exact ⟨hvf, (hinv.2 hvf).1, (hinv.2 hvf).2.1, (hinv.2 hvf).2.2⟩

theorem c1_binding_invariant_witness :
    WinInv (fun d => d == 24) 24
      (runWin (fun d => d == 24) 24 [WinOp.map 0 0 640 480 0, WinOp.unmap]
        (initWinEntry 1)) ∧
    ((runWin (fun d => d == 24) 24 [WinOp.map 0 0 640 480 0, WinOp.unmap]
        (initWinEntry 1)).mapped = false →
      (runWin (fun d => d == 24) 24 [WinOp.map 0 0 640 480 0, WinOp.unmap]
        (initWinEntry 1)).pixmap_valid = false ∧
      (runWin (fun d => d == 24) 24 [WinOp.map 0 0 640 480 0, WinOp.unmap]
        (initWinEntry 1)).pixmap = 0 ∧
      (runWin (fun d => d == 24) 24 [WinOp.map 0 0 640 480 0, WinOp.unmap]
        (initWinEntry 1)).glx_pixmap = 0 ∧
      (runWin (fun d => d == 24) 24 [WinOp.map 0 0 640 480 0, WinOp.unmap]
        (initWinEntry 1)).texture = 0) :=
  c1_binding_invariant (fun d => d == 24) 24
    [WinOp.map 0 0 640 480 0, WinOp.unmap] (initWinEntry 1)
    (by unfold WinInv; decide)

/-- **C6.** `unbind_window_pixmap` is idempotent: a second call on the
result of a first changes nothing. -/
theorem c6_unbind_idempotent (w : WinEntry) :
    unbind_window_pixmap (unbind_window_pixmap w) = unbind_window_pixmap w := by
  by_cases h : w.pixmap_valid = false <;> simp [unbind_window_pixmap, h]

/-- **C7, counterexample.** Calling `bind_window_pixmap` on a bound window
whose width precondition fails is not a no-op: the existing binding is
released first (screenshader.c:258 runs before the precondition check at
line 259), so the state changes. -/
theorem c7_counterexample :
    (c7win.mapped = true ∧ c7win.width ≤ 0 ∧ c7win.pixmap_valid = true) ∧
    bind_window_pixmap (fun d => d == 24) 24 c7win ≠ c7win := by decide

/-- **C7, amended.** If any precondition of `bind_window_pixmap` fails
(window unmapped, non-positive width or height, or depth without a usable
table entry), bind acquires nothing: it first releases any existing
binding (its effect is exactly that of `unbind_window_pixmap`) and leaves
everything else unchanged; the window ends up unbound — in particular an
already-unbound window is left entirely unchanged — and is skipped during
compositing. -/
theorem c7_bind_failed_precondition (tfp_available : Nat → Bool) (depth : Nat)
    (w : WinEntry)
    (h : w.mapped = false ∨ w.width ≤ 0 ∨ w.height ≤ 0 ∨
         depthUsable tfp_available depth = false) :
    bind_window_pixmap tfp_available depth w = unbind_window_pixmap w ∧
    (bind_window_pixmap tfp_available depth w).pixmap_valid = false ∧
    (w.pixmap_valid = false → bind_window_pixmap tfp_available depth w = w) ∧
    ∀ l : List WinEntry,
      bind_window_pixmap tfp_available depth w ∉ pass1_windows l := by
  have hif : (if w.pixmap_valid then unbind_window_pixmap w else w) =
      unbind_window_pixmap w := by
    split
    · rfl
    · rename_i hnv
      have hf : w.pixmap_valid = false := by
        rcases Bool.eq_false_or_eq_true w.pixmap_valid with h2 | h2
        · exact absurd h2 hnv
        · exact h2
      unfold unbind_window_pixmap
      rw [if_pos hf]
  have hchecks : ∀ v : WinEntry, v.mapped = w.mapped → v.width = w.width →
      v.height = w.height →
      bind_window_pixmap_checks tfp_available depth v = v := by
    intro v hm hw hh2
    unfold bind_window_pixmap_checks
    rcases h with hc | hc | hc | hc
    · rw [if_pos (Or.inl (by rw [hm, hc]))]
    · rw [if_pos (Or.inr (Or.inl (by rw [hw]; exact hc)))]
    · rw [if_pos (Or.inr (Or.inr (by rw [hh2]; exact hc)))]
    · by_cases h1 : v.mapped = false ∨ v.width ≤ 0 ∨ v.height ≤ 0
      · rw [if_pos h1]
      · rw [if_neg h1]
        by_cases h2 : v.mapped = false
        · rw [if_pos h2]
        · rw [if_neg h2]
          have hcond3 : depth = 0 ∨ 33 ≤ depth ∨ tfp_available depth = false := by
            simp only [depthUsable, Bool.and_eq_false_iff,
              decide_eq_false_iff_not, not_lt] at hc
            rcases hc with (hc2 | hc2) | hc2
            · exact Or.inl (by omega)
            · exact Or.inr (Or.inl (by omega))
            · exact Or.inr (Or.inr hc2)
          rw [if_pos hcond3]
  have hmain : bind_window_pixmap tfp_available depth w = unbind_window_pixmap w := by
    unfold bind_window_pixmap
    rw [hif]
    exact hchecks (unbind_window_pixmap w) (unbind_fields w).1
      (unbind_fields w).2.1 (unbind_fields w).2.2
  refine ⟨hmain, ?_, ?_, ?_⟩
  · rw [hmain]
    exact unbind_pixmap_valid w
  · intro hvf
    rw [hmain]
    unfold unbind_window_pixmap
    rw [if_pos hvf]
  · intro l hmem
    unfold pass1_windows at hmem
    have hp := List.of_mem_filter hmem
    simp only [Bool.and_eq_true] at hp
    have hv : (bind_window_pixmap tfp_available depth w).pixmap_valid = true :=
      hp.1.1.2
    rw [hmain, unbind_pixmap_valid] at hv
    exact Bool.noConfusion hv

theorem c7_bind_failed_precondition_witness :
    bind_window_pixmap (fun d => d == 24) 24 c7win =
      unbind_window_pixmap c7win ∧
    bind_window_pixmap (fun d => d == 24) 24 c7win ∉ pass1_windows [c7win] :=
  ⟨(c7_bind_failed_precondition (fun d => d == 24) 24 c7win (by decide)).1,
   (c7_bind_failed_precondition (fun d => d == 24) 24 c7win
      (by decide)).2.2.2 [c7win]⟩

theorem unlink_sublist (xid : Nat) (l : List WinEntry) :
    (unlink xid l).Sublist l := by
  induction l with
  | nil => simp [unlink]
  | cons e rest ih =>
      unfold unlink
      split
      · exact List.sublist_cons_self e rest
      · exact List.Sublist.cons₂ e ih

theorem not_mem_xids_unlink (x : Nat) (l : List WinEntry)
    (h : (xids l).Nodup) : x ∉ xids (unlink x l) := by
  induction l with
  | nil => simp [unlink, xids]
  | cons e rest ih =>
      simp only [xids, List.map_cons, List.nodup_cons] at h
      unfold unlink
      split
      · rename_i he
        rw [← he]
        exact fun hc => h.1 hc
      · rename_i he
        simp only [xids, List.map_cons, List.mem_cons]
        rintro (h1 | h1)
        · exact he h1.symm
        · exact ih h.2 h1

theorem not_mem_of_find_win_none (xid : Nat) (l : List WinEntry)
    (h : find_win xid l = none) : xid ∉ xids l := by
  induction l with
  | nil => simp [xids]
  | cons e rest ih =>
      unfold find_win at h
      split at h
      · exact Option.noConfusion h
      · rename_i he
        simp only [xids, List.map_cons, List.mem_cons]
        rintro (h1 | h1)
        · exact he h1.symm
        · exact ih h h1

theorem find_win_append (a : Nat) (b : WinEntry) (l₁ l₂ : List WinEntry)
    (hclean : ∀ e ∈ l₁, e.xid ≠ a) (hb : b.xid = a) :
    find_win a (l₁ ++ b :: l₂) = some b := by
  induction l₁ with
  | nil => simp [find_win, hb]
  | cons e rest ih =>
      simp only [List.cons_append]
      unfold find_win
      rw [if_neg (hclean e (by simp))]
      exact ih fun e2 he2 => hclean e2 (by simp [he2])

theorem find_win_eq_none (a : Nat) (l : List WinEntry)
    (hclean : ∀ e ∈ l, e.xid ≠ a) : find_win a l = none := by
  induction l with
  | nil => rfl
  | cons e rest ih =>
      unfold find_win
      rw [if_neg (hclean e (by simp))]
      exact ih fun e2 he2 => hclean e2 (by simp [he2])

theorem linkAbove_append (a : Nat) (w b : WinEntry) (l₁ l₂ : List WinEntry)
    (hclean : ∀ e ∈ l₁, e.xid ≠ a) (hb : b.xid = a) :
    linkAbove a w (l₁ ++ b :: l₂) = l₁ ++ b :: w :: l₂ := by
  induction l₁ with
  | nil => simp [linkAbove, hb]
  | cons e rest ih =>
      simp only [List.cons_append]
      unfold linkAbove
      rw [if_neg (hclean e (by simp))]
      rw [ih fun e2 he2 => hclean e2 (by simp [he2])]

theorem linkAbove_perm (a : Nat) (w : WinEntry) (l : List WinEntry) :
    (linkAbove a w l).Perm (w :: l) := by
  induction l with
  | nil => simp [linkAbove]
  | cons e rest ih =>
      unfold linkAbove
      split
      · exact List.Perm.swap w e rest
      · exact List.Perm.trans (ih.cons e) (List.Perm.swap w e rest)

theorem restack_win_nodup (l : List WinEntry) (w : WinEntry) (above : Nat)
    (h : (xids l).Nodup) : (xids (restack_win l w above)).Nodup := by
  have hsub : (xids (unlink w.xid l)).Nodup :=
    List.Nodup.sublist ((unlink_sublist w.xid l).map _) h
  have hnm : w.xid ∉ xids (unlink w.xid l) := not_mem_xids_unlink w.xid l h
  simp only [restack_win]
  split_ifs with h1 h2
  · simpa [xids] using List.nodup_cons.mpr ⟨hnm, hsub⟩
  · have hp : (xids (linkAbove above w (unlink w.xid l))).Perm
        (w.xid :: xids (unlink w.xid l)) := by
      simpa [xids] using (linkAbove_perm above w (unlink w.xid l)).map
        fun e => e.xid
    exact hp.nodup_iff.mpr (List.nodup_cons.mpr ⟨hnm, hsub⟩)
  · have hp : (xids (unlink w.xid l) ++ [w.xid]).Perm
        (w.xid :: xids (unlink w.xid l)) :=
      List.perm_append_singleton _ _
    have : (xids (unlink w.xid l) ++ [w.xid]).Nodup :=
      hp.nodup_iff.mpr (List.nodup_cons.mpr ⟨hnm, hsub⟩)
    simpa [xids] using this

theorem stepReg_nodup (overlay root : Nat) (l : List WinEntry) (op : RegOp)
    (h : (xids l).Nodup) : (xids (stepReg overlay root l op)).Nodup := by
  cases op with
  | insert xid =>
      simp only [stepReg, add_win]
      split_ifs with h1 h2
      · exact h
      · exact h
      · have hn : xid ∉ xids l := by
          apply not_mem_of_find_win_none
          cases hf : find_win xid l with
          | none => rfl
          | some w => rw [hf] at h1; exact absurd rfl h1
        have hc : (xid :: xids l).Nodup := List.nodup_cons.mpr ⟨hn, h⟩
        have hgoal : (xids l ++ [xid]).Nodup :=
          (List.perm_append_singleton xid (xids l)).nodup_iff.mpr hc
        simpa [xids, initWinEntry] using hgoal
  | remove xid =>
      simp only [stepReg]
      cases hf : find_win xid l with
      | none => exact h
      | some w => exact List.Nodup.sublist ((unlink_sublist xid l).map _) h
  | restack xid above =>
      simp only [stepReg]
      cases hf : find_win xid l with
      | none => exact h
      | some w => exact restack_win_nodup l w above h

/-- **C2.** Under any sequence of insert, remove and restack operations
the registry (a linear bottom-to-top list by representation, so totality
and link consistency are intrinsic) keeps pairwise-distinct window
identities; and an insert for an identity that is already tracked leaves
the registry unchanged — no second entry is created. -/
theorem c2_registry_invariant (overlay root : Nat) (ops : List RegOp)
    (l : List WinEntry) (h : (xids l).Nodup) :
    (xids (runReg overlay root ops l)).Nodup ∧
    (∀ xid, (find_win xid l).isSome = true →
      stepReg overlay root l (RegOp.insert xid) = l) := by
  constructor
  · unfold runReg
    induction ops generalizing l with
    | nil => exact h
    | cons op rest ih => exact ih _ (stepReg_nodup overlay root l op h)
  · intro xid hsome
    simp only [stepReg, add_win]
    rw [if_pos hsome]

theorem c2_registry_invariant_witness :
    (xids (runReg 90 91
      [RegOp.insert 5, RegOp.insert 5, RegOp.insert 6,
       RegOp.restack 5 6, RegOp.remove 6] [winA])).Nodup ∧
    (∀ xid, (find_win xid [winA]).isSome = true →
      stepReg 90 91 [winA] (RegOp.insert xid) = [winA]) :=
  c2_registry_invariant 90 91
    [RegOp.insert 5, RegOp.insert 5, RegOp.insert 6,
     RegOp.restack 5 6, RegOp.remove 6] [winA] (by decide)

/-- **C4.** Restacking a tracked window `w`: with no named sibling
(`above = 0`, X `None`) it is reinserted at the very bottom; with a
tracked sibling it is reinserted immediately above the first entry
carrying that identity; with an untracked sibling identity it is
reinserted at the very top. -/
theorem c4_restack_placement (l : List WinEntry) (w : WinEntry) (above : Nat)
    (hmem : w ∈ l) (h : (xids l).Nodup) :
    (above = 0 → restack_win l w above = w :: unlink w.xid l) ∧
    (∀ l₁ b l₂, above ≠ 0 → unlink w.xid l = l₁ ++ b :: l₂ → b.xid = above →
      (∀ e ∈ l₁, e.xid ≠ above) →
      restack_win l w above = l₁ ++ b :: w :: l₂) ∧
    (above ≠ 0 → (∀ e ∈ unlink w.xid l, e.xid ≠ above) →
      restack_win l w above = unlink w.xid l ++ [w]) := by
  refine ⟨?_, ?_, ?_⟩
  · intro ha
    subst ha
    simp [restack_win]
  · intro l₁ b l₂ ha hsplit hb hclean
    unfold restack_win
    rw [if_neg ha, hsplit, find_win_append above b l₁ l₂ hclean hb]
    rw [if_pos (by simp)]
    exact linkAbove_append above w b l₁ l₂ hclean hb
  · intro ha hclean
    unfold restack_win
    rw [if_neg ha, find_win_eq_none above _ hclean]
    simp

theorem c4_restack_placement_witness :
    restack_win [winA, winB, winC] winA winB.xid = [winB, winA, winC] :=
  (c4_restack_placement [winA, winB, winC] winA winB.xid (by decide)
      (by decide)).2.1 [] winB [winC] (by decide) (by decide) (by decide)
    (by decide)

/-- **C10.** A newly inserted registry entry is linked at the tail — the
top of the stacking order, above all currently tracked windows — and is
created with all flags cleared: unmapped, unbound, no damage handle, no
pending damage. -/
theorem c10_add_win_top (overlay root xid : Nat) (l : List WinEntry)
    (hnew : find_win xid l = none) (hov : xid ≠ overlay) (hrt : xid ≠ root) :
    add_win overlay root l xid = l ++ [initWinEntry xid] ∧
    (initWinEntry xid).mapped = false ∧
    (initWinEntry xid).pixmap_valid = false ∧
    (initWinEntry xid).damage = 0 ∧
    (initWinEntry xid).damaged = false := by
  refine ⟨?_, rfl, rfl, rfl, rfl⟩
  unfold add_win
  rw [if_neg (by simp [hnew]), if_neg (not_or.mpr ⟨hov, hrt⟩)]

theorem c10_add_win_top_witness :
    add_win 90 91 [winA] 2 = [winA] ++ [initWinEntry 2] ∧
    (initWinEntry 2).mapped = false ∧
    (initWinEntry 2).pixmap_valid = false ∧
    (initWinEntry 2).damage = 0 ∧
    (initWinEntry 2).damaged = false :=
  c10_add_win_top 90 91 2 [winA] (by decide) (by decide) (by decide)

/-- **C5.** Pass 1 of `render_frame` draws exactly the tracked windows
that are mapped, bound and of positive size, in bottom-to-top stacking
order (the drawn list is a sublist of the registry); and in the scenario
with `winA`, `winB`, `winC` tracked bottom-to-top, unmapping `winB` leaves
exactly `winA` then `winC` composited, and a subsequent remap of `winB`
with unchanged geometry rebinds it and re-includes it between `winA` and
`winC`. -/
theorem c5_pass1_draws :
    (∀ (l : List WinEntry) (w : WinEntry),
      w ∈ pass1_windows l ↔
        w ∈ l ∧ w.mapped = true ∧ w.pixmap_valid = true ∧
          0 < w.width ∧ 0 < w.height) ∧
    (∀ l : List WinEntry, (pass1_windows l).Sublist l) ∧
    xids (pass1_windows (handle_unmap [winA, winB, winC] 2)) = [1, 3] ∧
    xids (pass1_windows (handle_map (fun d => d == 24) 90 91
      { x := 50, y := 0, width := 100, height := 80, border_width := 0,
        depth := 24, override_redirect := false }
      (handle_unmap [winA, winB, winC] 2) 2)) = [1, 2, 3] := by
  refine ⟨?_, ?_, by decide, by decide⟩
  · intro l w
    unfold pass1_windows
    rw [List.mem_filter]
    simp only [Bool.and_eq_true, Bool.not_eq_true', decide_eq_false_iff_not,
      not_le]
    tauto
  · intro l
    exact List.filter_sublist l

theorem c5_pass1_draws_witness :
    winA ∈ pass1_windows [winA, winB, winC] :=
  (c5_pass1_draws.1 [winA, winB, winC] winA).mpr (by decide)

/-- **C3.** Hot-reload: when loading, compiling or linking the new
post-process fragment shader fails, the state — the active program and
every resolved uniform handle — is exactly unchanged; when everything
succeeds, the old program is destroyed, the new one is installed, the
screen-texture, resolution and time uniforms are re-resolved against the
new program, and every parameter keeps its name and value while its
uniform handle is re-resolved against the new program. -/
theorem c3_reload_keeps_program (env : ReloadEnv) (s : PostprocState) :
    (env.load_file = none → reload_postproc_shader env s = s) ∧
    (∀ src, env.load_file = some src → env.compile_ok src = false →
      reload_postproc_shader env s = s) ∧
    (∀ src, env.load_file = some src → env.link_ok = false →
      reload_postproc_shader env s = s) ∧
    (∀ src, env.load_file = some src → env.compile_ok src = true →
      env.link_ok = true →
      (reload_postproc_shader env s).postproc_prog = env.new_prog ∧
      (reload_postproc_shader env s).destroyed =
        s.destroyed ++ [s.postproc_prog] ∧
      (reload_postproc_shader env s).u_screen_tex =
        env.uloc env.new_prog "u_screen" ∧
      (reload_postproc_shader env s).u_resolution =
        env.uloc env.new_prog "u_resolution" ∧
      (reload_postproc_shader env s).u_time = env.uloc env.new_prog "u_time" ∧
      (reload_postproc_shader env s).params.map Param.name =
        s.params.map Param.name ∧
      (reload_postproc_shader env s).params.map Param.value =
        s.params.map Param.value ∧
      ∀ p ∈ (reload_postproc_shader env s).params,
        p.location = env.uloc env.new_prog p.name) := by
  refine ⟨?_, ?_, ?_, ?_⟩
  · intro h
    unfold reload_postproc_shader
    rw [h]
  · intro src h hc
    unfold reload_postproc_shader
    rw [h]
    simp [hc]
  · intro src h hl
    unfold reload_postproc_shader
    rw [h]
    by_cases hcc : env.compile_ok src = false <;> simp [hcc, hl]
  · intro src h hc hl
    have hred : reload_postproc_shader env s =
        { postproc_prog := env.new_prog,
          u_screen_tex := env.uloc env.new_prog "u_screen",
          u_resolution := env.uloc env.new_prog "u_resolution",
          u_time := env.uloc env.new_prog "u_time",
          params := s.params.map fun p =>
            { p with location := env.uloc env.new_prog p.name },
          destroyed := s.destroyed ++ [s.postproc_prog] } := by
      unfold reload_postproc_shader
      rw [h]
      simp [hc, hl]
    rw [hred]
    refine ⟨rfl, rfl, rfl, rfl, rfl, ?_, ?_, ?_⟩
    · simp [List.map_map, Function.comp]
    · simp [List.map_map, Function.comp]
    · intro p hp
      simp only [List.mem_map] at hp
      obtain ⟨q, hq, rfl⟩ := hp
      rfl

theorem c3_reload_keeps_program_witness :
    (reload_postproc_shader renvOk pp0).postproc_prog = renvOk.new_prog ∧
    (reload_postproc_shader renvOk pp0).destroyed =
      pp0.destroyed ++ [pp0.postproc_prog] :=
  ⟨((c3_reload_keeps_program renvOk pp0).2.2.2 "frag" rfl rfl rfl).1,
   ((c3_reload_keeps_program renvOk pp0).2.2.2 "frag" rfl rfl rfl).2.1⟩

theorem parse_line_location (parseF : String → Option Rat)
    (uloc : Nat → String → Int) (prog : Nat) (line : String) (p : Param)
    (h : parse_line parseF uloc prog line = some p) :
    p.location = uloc prog p.name := by
  unfold parse_line at h
  split at h
  · split at h
    · split at h
      · rename_i v hv
        rw [← Option.some.inj h]
      · exact Option.noConfusion h
    · exact Option.noConfusion h
  · exact Option.noConfusion h

theorem collect_params_location (parseF : String → Option Rat)
    (uloc : Nat → String → Int) (prog : Nat) (lines : List String)
    (acc : List Param) (hacc : ∀ p ∈ acc, p.location = uloc prog p.name) :
    ∀ p ∈ collect_params parseF uloc prog lines acc,
      p.location = uloc prog p.name := by
  induction lines generalizing acc with
  | nil => exact hacc
  | cons line rest ih =>
      unfold collect_params
      split
      · exact hacc
      · cases hp : parse_line parseF uloc prog line with
        | none => exact ih acc hacc
        | some p =>
            apply ih
            intro q hq
            rcases List.mem_append.mp hq with hq | hq
            · exact hacc q hq
            · rw [List.mem_singleton.mp hq]
              exact parse_line_location parseF uloc prog line p hp

theorem collect_params_length (parseF : String → Option Rat)
    (uloc : Nat → String → Int) (prog : Nat) (lines : List String)
    (acc : List Param) (hacc : acc.length ≤ 16) :
    (collect_params parseF uloc prog lines acc).length ≤ 16 := by
  induction lines generalizing acc with
  | nil => exact hacc
  | cons line rest ih =>
      unfold collect_params
      split
      · exact hacc
      · rename_i hlen
        cases parse_line parseF uloc prog line with
        | none => exact ih acc hacc
        | some p =>
            refine ih (acc ++ [p]) ?_
            simp only [List.length_append, List.length_singleton]
            omega

/-- **C8.** One poll of the parameter file: an unchanged modification
timestamp leaves the state untouched; a changed timestamp replaces the set
wholesale with the well-formed `name value` lines of the file (malformed
lines skipped, at most 16 entries), resolves every entry's uniform handle
against the current post-process program, records the timestamp and marks
redraw owed; concretely, polling `brightness 0.5` and `contrast 1.2`
yields exactly those two entries, re-polling with an unchanged timestamp
changes nothing, and polling `glitch 9.9` under a new timestamp replaces
the set with that single entry. -/
theorem c8_read_params_poll (parseF : String → Option Rat)
    (uloc : Nat → String → Int) (s : ParamState) :
    (∀ mtime text, mtime = s.param_mtime →
      read_params parseF uloc (some (mtime, text)) s = s) ∧
    (∀ mtime text, mtime ≠ s.param_mtime →
      (read_params parseF uloc (some (mtime, text)) s).params =
        collect_params parseF uloc s.postproc_prog (linesOf text) [] ∧
      (read_params parseF uloc (some (mtime, text)) s).param_mtime = mtime ∧
      (read_params parseF uloc (some (mtime, text)) s).needs_redraw = true ∧
      (read_params parseF uloc (some (mtime, text)) s).params.length ≤ 16 ∧
      ∀ p ∈ (read_params parseF uloc (some (mtime, text)) s).params,
        p.location = uloc s.postproc_prog p.name) ∧
    (read_params parseDec uloc0
        (some (1, "brightness 0.5\ncontrast 1.2")) ps0).params =
      [{ name := "brightness", value := mkRat 1 2,
         location := uloc0 7 "brightness" },
       { name := "contrast", value := mkRat 6 5,
         location := uloc0 7 "contrast" }] ∧
    read_params parseDec uloc0 (some (1, "glitch 9.9"))
        (read_params parseDec uloc0
          (some (1, "brightness 0.5\ncontrast 1.2")) ps0) =
      read_params parseDec uloc0
        (some (1, "brightness 0.5\ncontrast 1.2")) ps0 ∧
    (read_params parseDec uloc0 (some (2, "glitch 9.9"))
        (read_params parseDec uloc0
          (some (1, "brightness 0.5\ncontrast 1.2")) ps0)).params =
      [{ name := "glitch", value := mkRat 99 10,
         location := uloc0 7 "glitch" }] := by
  refine ⟨?_, ?_, by decide, by decide, by decide⟩
  · intro mtime text hsame
    simp only [read_params]
    rw [if_pos hsame]
  · intro mtime text hne
    simp only [read_params]
    rw [if_neg hne]
    refine ⟨rfl, rfl, rfl, ?_, ?_⟩
    · exact collect_params_length parseF uloc s.postproc_prog _ []
        (by simp)
    · exact collect_params_location parseF uloc s.postproc_prog _ []
        (by simp)

theorem c8_read_params_poll_witness :
    read_params parseDec uloc0 (some (0, "brightness 0.5")) ps0 = ps0 :=
  (c8_read_params_poll parseDec uloc0 ps0).1 0 "brightness 0.5" rfl

/-- **C9, counterexample.** With the parameter file absent at poll time,
the poll does not empty a previously loaded ParameterSet: `read_params`
returns before touching the set (`stat` fails, screenshader.c:681), so the
resulting set is the old one — here one entry, not zero. -/
theorem c9_counterexample :
    read_params parseDec uloc0 none c9state = c9state ∧
    c9state.params ≠ [] := by decide

/-- **C9, amended.** File absence at poll time is not an error: the poll
returns with the ParameterSet (and the whole parameter state) unchanged —
in particular, a process that never read a parameter file still has zero
parameters. -/
theorem c9_absent_no_op (parseF : String → Option Rat)
    (uloc : Nat → String → Int) (s : ParamState) :
    read_params parseF uloc none s = s ∧
    (s.params = [] → (read_params parseF uloc none s).params = []) :=
  ⟨rfl, fun h => h⟩

theorem c9_absent_no_op_witness :
    read_params parseDec uloc0 none ps0 = ps0 ∧
    (ps0.params = [] → (read_params parseDec uloc0 none ps0).params = []) :=
  c9_absent_no_op parseDec uloc0 ps0

end Screenshader
